import Mathlib

/-!
Verification of the Via Labs V4 Solana MVP client/SDK against its
natural-language specification.

The development shallowly embeds the TypeScript source:
byte buffers are `List Nat` (each element a byte value), `bn.js` big
numbers in the claims' scope are `Nat` (with `Option`/`Except` capturing
the throwing paths of `toArrayLike`, `writeUInt32LE` and validation),
and the external hash libraries (`js-sha3`'s `keccak_256`, node's
`sha256`) are embedded as the standard algorithms they implement.
-/

namespace Via

/-! ### Byte-level helpers -/

/-- `k` little-endian base-256 digits of `n` (zero padded).  This is the byte
layout produced by `bn.js` `toArrayLike(Buffer, "le", k)` for an in-range
number. -/
def leBytes : Nat → Nat → List Nat
  | 0, _ => []
  | k + 1, n => n % 256 :: leBytes k (n / 256)

/-- Value of a little-endian byte list (inverse of `leBytes` on in-range
values). -/
def leVal : List Nat → Nat
  | [] => 0
  | b :: bs => b + 256 * leVal bs

/-- `k` big-endian base-256 digits of `n`. -/
def beBytes (k n : Nat) : List Nat :=
  (List.range k).map fun i => n / 256 ^ (k - 1 - i) % 256

/-- Split a list into consecutive chunks of size `k`, with explicit fuel so the
recursion is structural (callers pass the list length as fuel). -/
def chunksGo (k : Nat) : Nat → List Nat → List (List Nat)
  | _, [] => []
  | 0, _ :: _ => []
  | fuel + 1, a :: rest => (a :: rest).take k :: chunksGo k fuel ((a :: rest).drop k)

/-! ### Keccak-256

Embeds `js-sha3`'s `keccak_256` (the external hash library the SDK's
`signatures.ts` calls): original Keccak with rate 1088, capacity 512,
padding byte `0x01`, 256-bit output. -/

namespace Keccak

/-- Left-rotate a 64-bit lane. -/
def rotl64 (x n : Nat) : Nat :=
  ((x <<< (n % 64)) ||| (x >>> (64 - n % 64))) % 2 ^ 64

/-- Lane at Keccak coordinates `(x, y)` in the flat 25-lane state. -/
def lane (st : List Nat) (x y : Nat) : Nat := st.getD (x + 5 * y) 0

/-- Theta step. -/
def theta (st : List Nat) : List Nat :=
  let c := (List.range 5).map fun x =>
    lane st x 0 ^^^ lane st x 1 ^^^ lane st x 2 ^^^ lane st x 3 ^^^ lane st x 4
  let d := (List.range 5).map fun x =>
    c.getD ((x + 4) % 5) 0 ^^^ rotl64 (c.getD ((x + 1) % 5) 0) 1
  (List.range 25).map fun i => st.getD i 0 ^^^ d.getD (i % 5) 0

/-- Rotation offsets as rows indexed by `x`, each row indexed by `y`
(`r[x][y]` in the FIPS 202 table). -/
def rhoOffsetRows : List (List Nat) :=
  [[0, 36, 3, 41, 18],
   [1, 44, 10, 45, 2],
   [62, 6, 43, 15, 61],
   [28, 55, 25, 21, 56],
   [27, 20, 39, 8, 14]]

/-- Rotation offset for the lane at flat index `x + 5 * y`. -/
def rhoOffsets (i : Nat) : Nat :=
  (rhoOffsetRows.getD (i % 5) []).getD (i / 5) 0

/-- Combined rho and pi steps: output lane `(x, y)` is the rotated input lane
`((x + 3y) mod 5, x)`. -/
def rhoPi (st : List Nat) : List Nat :=
  (List.range 25).map fun j =>
    let xo := j % 5
    let yo := j / 5
    let xi := (xo + 3 * yo) % 5
    let yi := xo
    rotl64 (lane st xi yi) (rhoOffsets (xi + 5 * yi))

/-- Chi step (lane complement via xor with the 64-bit mask). -/
def chi (st : List Nat) : List Nat :=
  (List.range 25).map fun j =>
    let x := j % 5
    let y := j / 5
    lane st x y ^^^
      ((lane st ((x + 1) % 5) y ^^^ 0xFFFFFFFFFFFFFFFF) &&& lane st ((x + 2) % 5) y)

/-- One step of the degree-8 LFSR generating the round-constant bits. -/
def lfsrStep (s : Nat) : Nat :=
  if s &&& 0x80 ≠ 0 then ((s <<< 1) &&& 0xFF) ^^^ 0x71 else (s <<< 1) &&& 0xFF

/-- The 24 round constants of Keccak-f[1600], generated from the LFSR as in
the Keccak reference. -/
def roundConstants : List Nat :=
  ((List.range 24).foldl (fun (p : Nat × List Nat) _ =>
      let q := (List.range 7).foldl (fun (q : Nat × Nat) j =>
          let bit := q.1 &&& 1
          (lfsrStep q.1, if bit = 1 then q.2 ||| (1 <<< (2 ^ j - 1)) else q.2))
        (p.1, 0)
      (q.1, p.2 ++ [q.2]))
    (1, [])).2

/-- One Keccak-f round. -/
def keccakRound (st : List Nat) (rc : Nat) : List Nat :=
  match chi (rhoPi (theta st)) with
  | [] => []
  | t :: rest => (t ^^^ rc) :: rest

/-- The Keccak-f[1600] permutation. -/
def keccakF (st : List Nat) : List Nat :=
  roundConstants.foldl keccakRound st

/-- Original Keccak padding for rate 136: `0x01 … 0x80` (a single `0x81` byte
when only one padding position is left). -/
def pad136 (msg : List Nat) : List Nat :=
  let padLen := 136 - msg.length % 136
  if padLen = 1 then msg ++ [0x81]
  else msg ++ [0x01] ++ List.replicate (padLen - 2) 0 ++ [0x80]

/-- Load lane `i` of a 136-byte block (8 bytes, little-endian). -/
def loadLane (block : List Nat) (i : Nat) : Nat :=
  (List.range 8).foldl (fun acc j => acc + block.getD (8 * i + j) 0 * 256 ^ j) 0

/-- Absorb one 136-byte block and permute. -/
def absorbBlock (st block : List Nat) : List Nat :=
  keccakF ((List.range 25).map fun i =>
    if i < 17 then st.getD i 0 ^^^ loadLane block i else st.getD i 0)

end Keccak

/-- Keccak-256 of a byte string: the digest `js-sha3`'s `keccak_256` returns
(as raw bytes). -/
def keccak256 (msg : List Nat) : List Nat :=
  let padded := Keccak.pad136 msg
  let st := (chunksGo 136 padded.length padded).foldl Keccak.absorbBlock
    (List.replicate 25 0)
  (List.range 32).map fun i => st.getD (i / 8) 0 / 256 ^ (i % 8) % 256

/-! ### SHA-256

Embeds node's `createHash('sha256')`, which the Phase-2 plan document's
`createMessageHash` sketch uses: standard FIPS 180-4 SHA-256. -/

namespace Sha2

/-- Right-rotate a 32-bit word. -/
def rotr32 (x n : Nat) : Nat :=
  ((x >>> (n % 32)) ||| (x <<< (32 - n % 32))) % 2 ^ 32

/-- The 64 SHA-256 round constants (FIPS 180-4 §4.2.2, in decimal). -/
def kTable : List Nat :=
  [1116352408, 1899447441, 3049323471, 3921009573,
   961987163, 1508970993, 2453635748, 2870763221,
   3624381080, 310598401, 607225278, 1426881987,
   1925078388, 2162078206, 2614888103, 3248222580,
   3835390401, 4022224774, 264347078, 604807628,
   770255983, 1249150122, 1555081692, 1996064986,
   2554220882, 2821834349, 2952996808, 3210313671,
   3336571891, 3584528711, 113926993, 338241895,
   666307205, 773529912, 1294757372, 1396182291,
   1695183700, 1986661051, 2177026350, 2456956037,
   2730485921, 2820302411, 3259730800, 3345764771,
   3516065817, 3600352804, 4094571909, 275423344,
   430227734, 506948616, 659060556, 883997877,
   958139571, 1322822218, 1537002063, 1747873779,
   1955562222, 2024104815, 2227730452, 2361852424,
   2428436474, 2756734187, 3204031479, 3329325298]

/-- The SHA-256 initial hash value (FIPS 180-4 §5.3.3, in decimal). -/
def h0 : List Nat :=
  [1779033703, 3144134277, 1013904242, 2773480762,
   1359893119, 2600822924, 528734635, 1541459225]

/-- SHA-256 message padding: `0x80`, zeros, then the 64-bit big-endian bit
length. -/
def pad (msg : List Nat) : List Nat :=
  let l := msg.length
  let zeros := (64 + 55 - l % 64) % 64
  msg ++ [0x80] ++ List.replicate zeros 0 ++ beBytes 8 (8 * l)

/-- Load word `t` of a 64-byte block (big-endian). -/
def loadWord (block : List Nat) (t : Nat) : Nat :=
  block.getD (4 * t) 0 * 2 ^ 24 + block.getD (4 * t + 1) 0 * 2 ^ 16 +
    block.getD (4 * t + 2) 0 * 2 ^ 8 + block.getD (4 * t + 3) 0

def sigma0 (x : Nat) : Nat := rotr32 x 7 ^^^ rotr32 x 18 ^^^ (x >>> 3)

def sigma1 (x : Nat) : Nat := rotr32 x 17 ^^^ rotr32 x 19 ^^^ (x >>> 10)

def bigSigma0 (x : Nat) : Nat := rotr32 x 2 ^^^ rotr32 x 13 ^^^ rotr32 x 22

def bigSigma1 (x : Nat) : Nat := rotr32 x 6 ^^^ rotr32 x 11 ^^^ rotr32 x 25

/-- The 64-word message schedule of a block. -/
def schedule (block : List Nat) : List Nat :=
  (List.range 48).foldl (fun w _ =>
      let n := w.length
      w ++ [(sigma1 (w.getD (n - 2) 0) + w.getD (n - 7) 0 +
             sigma0 (w.getD (n - 15) 0) + w.getD (n - 16) 0) % 2 ^ 32])
    ((List.range 16).map (loadWord block))

/-- Process one 64-byte block. -/
def compress (h block : List Nat) : List Nat :=
  let step := fun (st : List Nat) (p : Nat × Nat) =>
    let a := st.getD 0 0
    let b := st.getD 1 0
    let c := st.getD 2 0
    let d := st.getD 3 0
    let e := st.getD 4 0
    let f := st.getD 5 0
    let g := st.getD 6 0
    let hh := st.getD 7 0
    let ch := (e &&& f) ^^^ ((e ^^^ 0xFFFFFFFF) &&& g)
    let maj := (a &&& b) ^^^ (a &&& c) ^^^ (b &&& c)
    let t1 := (hh + bigSigma1 e + ch + p.2 + p.1) % 2 ^ 32
    let t2 := (bigSigma0 a + maj) % 2 ^ 32
    [(t1 + t2) % 2 ^ 32, a, b, c, (d + t1) % 2 ^ 32, e, f, g]
  let out := ((schedule block).zip kTable).foldl step h
  (List.range 8).map fun i => (h.getD i 0 + out.getD i 0) % 2 ^ 32

end Sha2

/-- SHA-256 of a byte string (raw digest bytes). -/
def sha256 (msg : List Nat) : List Nat :=
  let padded := Sha2.pad msg
  let final := (chunksGo 64 padded.length padded).foldl Sha2.compress Sha2.h0
  (List.range 32).map fun i => final.getD (i / 4) 0 / 256 ^ (3 - i % 4) % 256

/-! ### bn.js and Buffer primitives at the interface boundary -/

/-- bn.js `toArrayLike(Buffer, "le", len)`: little-endian bytes zero-padded to
`len`.  bn.js asserts "byte array longer than desired length" when the number
needs more than `len` bytes; the throw is modelled as `none`. -/
def bnToArrayLikeLE (n len : Nat) : Option (List Nat) :=
  if n < 256 ^ len then some (leBytes len n) else none

/-- Buffer `writeUInt32LE`: 4 little-endian bytes; node throws a `RangeError`
for values outside `[0, 2^32)`, modelled as `none`. -/
def writeUInt32LE (n : Nat) : Option (List Nat) :=
  if n < 2 ^ 32 then some (leBytes 4 n) else none

/-- Buffer `writeUInt16LE`: 2 little-endian bytes; out-of-range throws,
modelled as `none`. -/
def writeUInt16LE (n : Nat) : Option (List Nat) :=
  if n < 2 ^ 16 then some (leBytes 2 n) else none

/-- Byte values of an ASCII string (`Buffer.from(s)` for the ASCII seed
labels used by the source). -/
def asciiBytes (s : String) : List Nat := s.data.map Char.toNat

/-! ### signatures.ts -/

/-- `encodeLengthPrefixed` from `signatures.ts`: a u32 little-endian length
prefix followed by the raw data. -/
def encodeLengthPrefixed (data : List Nat) : Option (List Nat) := do
  let lengthBuffer ← writeUInt32LE data.length
  pure (lengthBuffer ++ data)

/-- `createMessageHash` from `signatures.ts`: pushes the seven encoded fields
in order, concatenates, and hashes the result with `js-sha3`'s
`keccak_256`. -/
def createMessageHash (txId sourceChainId destChainId : Nat)
    (sender recipient onChainData offChainData : List Nat) : Option (List Nat) := do
  let e1 ← bnToArrayLikeLE txId 16
  let e2 ← bnToArrayLikeLE sourceChainId 8
  let e3 ← bnToArrayLikeLE destChainId 8
  let e4 ← encodeLengthPrefixed sender
  let e5 ← encodeLengthPrefixed recipient
  let e6 ← encodeLengthPrefixed onChainData
  let e7 ← encodeLengthPrefixed offChainData
  pure (keccak256 (e1 ++ e2 ++ e3 ++ e4 ++ e5 ++ e6 ++ e7))

/-- `createMessageHash` as written in the Phase-2 plan document
(SIGNATURE_DEVNET_PLAN §2.1): SHA-256 over the fixed integer fields, a one-byte
length for `sender`/`recipient` (`Buffer.from([len])` truncates mod 256) and a
u16 little-endian length for `onChainData`/`offChainData`. -/
def planCreateMessageHash (txId sourceChainId destChainId : Nat)
    (sender recipient onChainData offChainData : List Nat) : Option (List Nat) := do
  let t ← bnToArrayLikeLE txId 16
  let s ← bnToArrayLikeLE sourceChainId 8
  let d ← bnToArrayLikeLE destChainId 8
  let onChainLen ← writeUInt16LE onChainData.length
  let offChainLen ← writeUInt16LE offChainData.length
  pure (sha256 (t ++ s ++ d ++ [sender.length % 256] ++ sender ++
    [recipient.length % 256] ++ recipient ++ onChainLen ++ onChainData ++
    offChainLen ++ offChainData))

/-! ### The spec's canonical encoding (§4.1), for comparison with the source -/

/-- A message value (§3 of the spec). -/
structure Message where
  txId : Nat
  sourceChainId : Nat
  destChainId : Nat
  sender : List Nat
  recipient : List Nat
  onChainData : List Nat
  offChainData : List Nat
  deriving DecidableEq, Repr

/-- The spec's length-prefixed form: 4-byte little-endian length then raw
bytes. -/
def lengthPrefixed (data : List Nat) : List Nat := leBytes 4 data.length ++ data

/-- The spec's §4.1 canonical encoding: the seven fields concatenated in fixed
order with no separators. -/
def encodeMessage (m : Message) : List Nat :=
  leBytes 16 m.txId ++ leBytes 8 m.sourceChainId ++ leBytes 8 m.destChainId ++
    lengthPrefixed m.sender ++ lengthPrefixed m.recipient ++
    lengthPrefixed m.onChainData ++ lengthPrefixed m.offChainData

/-! ### types.ts: validation -/

/-- A nullable bn.js value as the SDK receives it: `none` models JS
null/undefined; bn.js numbers carry a sign. -/
abbrev BNVal := Option Int

/-- Errors thrown during PDA derivation: the two validation errors of
`types.ts` ("Invalid chain ID: …" / "Invalid TX ID: …") and the bn.js
`toArrayLike` assertion. -/
inductive IdError where
  | invalidChainId
  | invalidTxId
  | bnAssert
  deriving DecidableEq, Repr

/-- `validateChainId` from `types.ts`: throws when the value is null/undefined
(`!chainId`; a BN object, even zero, is truthy) or negative (`isNeg()`). -/
def validateChainId (chainId : BNVal) : Except IdError Unit :=
  match chainId with
  | none => .error .invalidChainId
  | some v => if v < 0 then .error .invalidChainId else .ok ()

/-- `validateTxId` from `types.ts`: same conditions, different message. -/
def validateTxId (txId : BNVal) : Except IdError Unit :=
  match txId with
  | none => .error .invalidTxId
  | some v => if v < 0 then .error .invalidTxId else .ok ()

/-- bn.js `toArrayLike(Buffer, "le", len)` on a signed BN: encodes the
magnitude, asserting it fits in `len` bytes. -/
def bnLE (v : Int) (len : Nat) : Except IdError (List Nat) :=
  if v.natAbs < 256 ^ len then .ok (leBytes len v.natAbs) else .error .bnAssert

/-! ### constants.ts -/

def SOLANA_CHAIN_ID : Nat := 9999999999999999999

def AVALANCHE_CHAIN_ID : Nat := 43113

def CHAIN_ID_BYTES : Nat := 8

def TX_ID_BYTES : Nat := 16

/-! ### The SDK's PDA utilities (packages/via-labs-sdk/src/pdas.ts)

`PublicKey.findProgramAddressSync(seeds, programId)` is a pure function of
its seed list and the program id; the SDK always passes the one program id of
the client, so an address is modelled by its seed list (equal seed lists give
equal addresses, and the derivation is collision-free across the distinct
string labels). -/

/-- A PDA modelled by its derivation seeds. -/
abbrev Seeds := List (List Nat)

/-- `registryTypeToDiscriminant` from the SDK's `pdas.ts` (matches the Rust
enum discriminants). -/
inductive RegistryType where
  | via
  | chain
  | project
  deriving DecidableEq, Repr

def registryTypeToDiscriminant : RegistryType → Nat
  | .via => 0
  | .chain => 1
  | .project => 2

/-- `ViaLabsPDAs.getGatewayPda`: validate, then derive from
`["gateway", chainId le 8]`.  (After validation the id is non-null, so the
model reads it with `getD`.) -/
def getGatewayPda (chainId : BNVal) : Except IdError Seeds := do
  validateChainId chainId
  let b ← bnLE (chainId.getD 0) CHAIN_ID_BYTES
  pure [asciiBytes "gateway", b]

/-- `ViaLabsPDAs.getSignerRegistryPda`: validate, then derive from
`["signer_registry", [discriminant], chainId le 8]`. -/
def getSignerRegistryPda (registryType : RegistryType) (chainId : BNVal) :
    Except IdError Seeds := do
  validateChainId chainId
  let discriminantBuffer := [registryTypeToDiscriminant registryType]
  let b ← bnLE (chainId.getD 0) CHAIN_ID_BYTES
  pure [asciiBytes "signer_registry", discriminantBuffer, b]

/-- `ViaLabsPDAs.getCounterPda`: validate, then derive from
`["counter", sourceChainId le 8]`. -/
def getCounterPda (sourceChainId : BNVal) : Except IdError Seeds := do
  validateChainId sourceChainId
  let b ← bnLE (sourceChainId.getD 0) CHAIN_ID_BYTES
  pure [asciiBytes "counter", b]

/-- `ViaLabsPDAs.getTxIdPda`: validate both ids, then derive from
`["tx", sourceChainId le 8, txId le 16]`. -/
def getTxIdPda (sourceChainId txId : BNVal) : Except IdError Seeds := do
  validateChainId sourceChainId
  validateTxId txId
  let b1 ← bnLE (sourceChainId.getD 0) CHAIN_ID_BYTES
  let b2 ← bnLE (txId.getD 0) TX_ID_BYTES
  pure [asciiBytes "tx", b1, b2]

/-! ### The client's PDA utilities (client/pdas.ts) -/

namespace Client

/-- Modelled from the spec: `program.coder.types.encode("signerRegistryType",
{via:{}})` — Anchor's Borsh coder over the IDL enum, whose generated IDL
(under `target/`, not under `src/`) is the closed three-variant enumeration
with the fixed discriminants of §6: Via=0, Chain=1, Project=2, encoded as the
single discriminant byte. -/
def coderEncodeSignerRegistryType : RegistryType → List Nat
  | .via => [0]
  | .chain => [1]
  | .project => [2]

/-- `client/pdas.ts` `getGatewayPda()`: hardcoded to `SOLANA_CHAIN_ID`, no
validation. -/
def getGatewayPda : Except IdError Seeds := do
  let b ← bnLE (SOLANA_CHAIN_ID : Int) 8
  pure [asciiBytes "gateway", b]

/-- `client/pdas.ts` `getSignerRegistryPdaForChain`: coder-encoded
discriminant, then `["signer_registry", discriminant, chainId le 8]`. -/
def getSignerRegistryPdaForChain (registryType : RegistryType) (chainId : Int) :
    Except IdError Seeds := do
  let discriminantBuffer := coderEncodeSignerRegistryType registryType
  let b ← bnLE chainId 8
  pure [asciiBytes "signer_registry", discriminantBuffer, b]

/-- `client/pdas.ts` `getCounterPda`. -/
def getCounterPda (sourceChainId : Int) : Except IdError Seeds := do
  let b ← bnLE sourceChainId 8
  pure [asciiBytes "counter", b]

/-- `client/pdas.ts` `getTxIdPda`. -/
def getTxIdPda (sourceChainId txId : Int) : Except IdError Seeds := do
  let b1 ← bnLE sourceChainId 8
  let b2 ← bnLE txId 16
  pure [asciiBytes "tx", b1, b2]

end Client

/-! ### The replay-protection ledger and the SDK's `createTxPda` -/

/-- The single on-chain error the modelled Phase-1 operation can raise. -/
inductive GatewayError where
  | alreadyExists
  deriving DecidableEq, Repr

/-- The on-chain account store, as the set of occupied PDA addresses (each
modelled by its seeds). -/
abbrev Ledger := List Seeds

/-- Modelled from the spec: the on-chain Phase-1 operation (`create_tx_pda` of
`programs/message_gateway_v4`, which is not under `src/`).  §4.4: Absent →
Pending, an atomic, exclusive creation of the marker record at the given
address, failing with `AlreadyExists` if a marker is already Pending there. -/
def createRecord (ledger : Ledger) (key : Seeds) : Except GatewayError Ledger :=
  if key ∈ ledger then .error .alreadyExists else .ok (key :: ledger)

/-- Errors of the composed SDK call: client-side derivation errors or the
on-chain error. -/
inductive TxPdaError where
  | sdk (e : IdError)
  | chain (e : GatewayError)
  deriving DecidableEq, Repr

/-- `ViaLabsSDK.createTxPda`: derives `txIdPda = getTxIdPda(sourceChainId,
txId)` and submits the creation of that account; the on-chain effect is the
modelled `createRecord` at that address. -/
def createTxPdaOp (ledger : Ledger) (m : Message) : Except TxPdaError Ledger :=
  match getTxIdPda (some (m.sourceChainId : Int)) (some (m.txId : Int)) with
  | .error e => .error (.sdk e)
  | .ok key =>
    match createRecord ledger key with
    | .error e => .error (.chain e)
    | .ok l => .ok l

/-! ### Transactions with Ed25519 verification instructions (sdk.ts) -/

/-- A collected signature (`MessageSignature` in `signatures.ts`). -/
structure MessageSignature where
  signature : List Nat
  signer : List Nat
  deriving DecidableEq, Repr

/-- An instruction in a built transaction.  `ed25519` is the system-level
verification instruction produced by web3.js
`Ed25519Program.createInstructionWithPublicKey` (external library, modelled at
its interface: it verifies `signature` by `publicKey` over exactly
`message`); the two `main` variants carry the program call's arguments and
the PDA accounts it is wired to. -/
inductive Instr where
  | ed25519 (signature publicKey message : List Nat)
  | createTxPdaMain (txId sourceChainId destChainId : Nat)
      (sender recipient onChainData offChainData : List Nat)
      (signatures : List MessageSignature) (txIdPda counterPda : Seeds)
  | processMessageMain (txId sourceChainId destChainId : Nat)
      (sender recipient onChainData offChainData : List Nat)
      (signatures : List MessageSignature)
      (gateway txIdPda viaRegistry chainRegistry projectRegistry : Seeds)
  deriving DecidableEq, Repr

/-- `createEd25519Instruction` from `signatures.ts`. -/
def createEd25519Instruction (signature publicKey message : List Nat) : Instr :=
  .ed25519 signature publicKey message

/-- `ViaLabsSDK.createTxPdaWithSignatures`: hash the message, add one Ed25519
instruction per collected signature over that hash, then append the main
`createTxPda` instruction.  `none` models the throwing paths (bn.js
assertions). -/
def createTxPdaWithSignatures (txId sourceChainId destChainId : Nat)
    (sender recipient onChainData offChainData : List Nat)
    (signatures : List MessageSignature) : Option (List Instr) := do
  let messageHash ← createMessageHash txId sourceChainId destChainId sender
    recipient onChainData offChainData
  let edIxs := signatures.map fun sig =>
    createEd25519Instruction sig.signature sig.signer messageHash
  let txIdPda ← (getTxIdPda (some (sourceChainId : Int)) (some (txId : Int))).toOption
  let counterPda ← (getCounterPda (some (sourceChainId : Int))).toOption
  pure (edIxs ++ [.createTxPdaMain txId sourceChainId destChainId sender
    recipient onChainData offChainData signatures txIdPda counterPda])

/-- `ViaLabsSDK.processMessage` (single program call, no Ed25519
instructions): wires the via registry to the destination chain, the chain
registry to the source chain and the project registry to the destination
chain. -/
def processMessage (txId sourceChainId destChainId : Nat)
    (sender recipient onChainData offChainData : List Nat)
    (signatures : List MessageSignature) : Option Instr := do
  let gateway ← (getGatewayPda (some (destChainId : Int))).toOption
  let txIdPda ← (getTxIdPda (some (sourceChainId : Int)) (some (txId : Int))).toOption
  let viaRegistry ← (getSignerRegistryPda .via (some (destChainId : Int))).toOption
  let chainRegistry ← (getSignerRegistryPda .chain (some (sourceChainId : Int))).toOption
  let projectRegistry ← (getSignerRegistryPda .project (some (destChainId : Int))).toOption
  pure (.processMessageMain txId sourceChainId destChainId sender recipient
    onChainData offChainData signatures gateway txIdPda viaRegistry
    chainRegistry projectRegistry)

/-- `ViaLabsSDK.processMessageWithSignatures`: hash, one Ed25519 instruction
per signature, then the main `processMessage` instruction with the same
registry wiring as `processMessage`. -/
def processMessageWithSignatures (txId sourceChainId destChainId : Nat)
    (sender recipient onChainData offChainData : List Nat)
    (signatures : List MessageSignature) : Option (List Instr) := do
  let messageHash ← createMessageHash txId sourceChainId destChainId sender
    recipient onChainData offChainData
  let edIxs := signatures.map fun sig =>
    createEd25519Instruction sig.signature sig.signer messageHash
  let main ← processMessage txId sourceChainId destChainId sender recipient
    onChainData offChainData signatures
  pure (edIxs ++ [main])

/-- `ProcessMessageExecutor.execute` from `scripts/process_message.ts`: the
same program call built with the client module's PDA utilities (gateway
hardcoded to Solana; via registry at the destination chain, chain registry at
the source chain, project registry at the destination chain). -/
def scriptProcessMessage (txId sourceChainId destChainId : Nat)
    (sender recipient onChainData offChainData : List Nat)
    (signatures : List MessageSignature) : Option Instr := do
  let gateway ← Client.getGatewayPda.toOption
  let txIdPda ← (Client.getTxIdPda (sourceChainId : Int) (txId : Int)).toOption
  let viaRegistry ← (Client.getSignerRegistryPdaForChain .via (destChainId : Int)).toOption
  let chainRegistry ← (Client.getSignerRegistryPdaForChain .chain (sourceChainId : Int)).toOption
  let projectRegistry ← (Client.getSignerRegistryPdaForChain .project (destChainId : Int)).toOption
  pure (.processMessageMain txId sourceChainId destChainId sender recipient
    onChainData offChainData signatures gateway txIdPda viaRegistry
    chainRegistry projectRegistry)

/-! ### tools/setup.ts -/

/-- Whether the first list occurs at the head of the second list. -/
def matchesAt [DecidableEq α] : List α → List α → Bool
  | x :: xs, u :: us => decide (x = u) && matchesAt xs us
  | nd, _ => nd.isEmpty

/-- Whether `needle` occurs as a contiguous run anywhere in the second list
(JS `String.includes`). -/
def containsSeq [DecidableEq α] (needle : List α) : List α → Bool
  | [] => decide (needle = [])
  | b :: bs => matchesAt needle (b :: bs) || containsSeq needle bs

/-- The absorbed condition of `setupChain`:
`e.message?.includes("already in use")`. -/
def containsAlreadyInUse (msg : String) : Bool :=
  containsSeq "already in use".data msg.data

/-- One try/catch step of `setupChain`: an error whose message contains
"already in use" is absorbed (logged as "already exists" and treated as
success); any other error is rethrown. -/
def setupStep (r : Except String Unit) : Except String Unit :=
  match r with
  | .ok _ => .ok ()
  | .error e => if containsAlreadyInUse e then .ok () else .error e

/-- The outcomes of the five initialization calls `setupChain` makes, in
order: gateway, counter, then the via/chain/project registries. -/
structure SetupOutcomes where
  gateway : Except String Unit
  counter : Except String Unit
  viaRegistry : Except String Unit
  chainRegistry : Except String Unit
  projectRegistry : Except String Unit

/-- `setupChain` from `tools/setup.ts`, as a function of the five step
outcomes: each step is wrapped in the absorbing try/catch, and a rethrown
error aborts the remaining steps. -/
def setupChain (o : SetupOutcomes) : Except String Unit := do
  setupStep o.gateway
  setupStep o.counter
  setupStep o.viaRegistry
  setupStep o.chainRegistry
  setupStep o.projectRegistry

/-- The step outcomes in execution order. -/
def setupSteps (o : SetupOutcomes) : List (Except String Unit) :=
  [o.gateway, o.counter, o.viaRegistry, o.chainRegistry, o.projectRegistry]

/-- Sequencing a list of absorbing setup steps (the loop body of
`setupChain`, in list form for induction). -/
def runSteps : List (Except String Unit) → Except String Unit
  | [] => .ok ()
  | r :: rs => do
    setupStep r
    runSteps rs

/-- A sample message (source chain 43113, tx id 1). -/
def exampleMsg1 : Message := ⟨1, 43113, 5, [1], [2], [3], [4]⟩

/-- A second sample message with the same `(sourceChainId, txId)` key as
`exampleMsg1` but different contents. -/
def exampleMsg2 : Message := ⟨1, 43113, 5, [9], [9], [9], [9]⟩

/-- The ledger after `exampleMsg1`'s marker is created in an empty ledger. -/
def exampleLedger : Ledger :=
  [[asciiBytes "tx", leBytes 8 43113, leBytes 16 1]]

/-- Two sample collected signatures, used by concrete instantiations. -/
def sigsExample : List MessageSignature := [⟨[9], [7]⟩, ⟨[8], [6]⟩]

/-- The signer-registry PDA seeds for a (layer, chain) pair, as both PDA
modules derive them for in-range inputs. -/
def signerRegistrySeeds (rt : RegistryType) (chainId : Nat) : Seeds :=
  [asciiBytes "signer_registry", [registryTypeToDiscriminant rt],
    leBytes 8 chainId]

/-! ## Lemmas about the byte-level helpers -/

theorem leBytes_length (k n : Nat) : (leBytes k n).length = k := by
  induction k generalizing n with
  | zero => rfl
  | succ k ih => simp [leBytes, ih]

theorem leVal_leBytes (k n : Nat) (h : n < 256 ^ k) : leVal (leBytes k n) = n := by
  induction k generalizing n with
  | zero =>
    simp only [pow_zero, Nat.lt_one_iff] at h
    simp [leBytes, leVal, h]
  | succ k ih =>
    have hdiv : n / 256 < 256 ^ k := by
      apply Nat.div_lt_of_lt_mul
      calc n < 256 ^ (k + 1) := h
        _ = 256 * 256 ^ k := by ring
    simp only [leBytes, leVal, ih _ hdiv]
    omega

theorem leBytes_inj {k a b : Nat} (ha : a < 256 ^ k) (hb : b < 256 ^ k)
    (h : leBytes k a = leBytes k b) : a = b := by
  have := congrArg leVal h
  rwa [leVal_leBytes _ _ ha, leVal_leBytes _ _ hb] at this

/-- Peel a fixed-width little-endian integer segment off the front of two equal
byte strings. -/
theorem leBytes_append_inj {k a b : Nat} {r1 r2 : List Nat}
    (ha : a < 256 ^ k) (hb : b < 256 ^ k)
    (h : leBytes k a ++ r1 = leBytes k b ++ r2) : a = b ∧ r1 = r2 := by
  have hlen : (leBytes k a).length = (leBytes k b).length := by
    simp [leBytes_length]
  obtain ⟨h1, h2⟩ := List.append_inj h hlen
  exact ⟨leBytes_inj ha hb h1, h2⟩

theorem pow256_four : (256 : Nat) ^ 4 = 2 ^ 32 := by norm_num

theorem pow256_eight : (256 : Nat) ^ 8 = 2 ^ 64 := by norm_num

theorem pow256_sixteen : (256 : Nat) ^ 16 = 2 ^ 128 := by norm_num

/-- Peel a length-prefixed segment off the front of two equal byte strings:
the 4-byte prefixes force equal lengths, hence equal data and equal tails. -/
theorem lengthPrefixed_append_inj {a b r1 r2 : List Nat}
    (ha : a.length < 2 ^ 32) (hb : b.length < 2 ^ 32)
    (h : lengthPrefixed a ++ r1 = lengthPrefixed b ++ r2) : a = b ∧ r1 = r2 := by
  unfold lengthPrefixed at h
  rw [List.append_assoc, List.append_assoc] at h
  obtain ⟨hlen, hrest⟩ :=
    leBytes_append_inj (pow256_four ▸ ha) (pow256_four ▸ hb) h
  exact List.append_inj hrest hlen

theorem lengthPrefixed_inj {a b : List Nat}
    (ha : a.length < 2 ^ 32) (hb : b.length < 2 ^ 32)
    (h : lengthPrefixed a = lengthPrefixed b) : a = b := by
  have h' : lengthPrefixed a ++ ([] : List Nat) = lengthPrefixed b ++ [] := by
    simpa using h
  exact (lengthPrefixed_append_inj ha hb h').1

/-! ## Lemmas about the digests -/

/-- Keccak-256 always emits exactly 32 bytes. -/
theorem keccak256_length (msg : List Nat) : (keccak256 msg).length = 32 := by
  simp [keccak256]

/-- SHA-256 always emits exactly 32 bytes. -/
theorem sha256_length (msg : List Nat) : (sha256 msg).length = 32 := by
  simp [sha256]

/-! ## Evaluation lemmas for the Option/Except plumbing -/

theorem bnToArrayLikeLE_of_lt {n len : Nat} (h : n < 256 ^ len) :
    bnToArrayLikeLE n len = some (leBytes len n) := by
  simp [bnToArrayLikeLE, h]

theorem encodeLengthPrefixed_of_lt {d : List Nat} (h : d.length < 2 ^ 32) :
    encodeLengthPrefixed d = some (lengthPrefixed d) := by
  simp only [encodeLengthPrefixed, writeUInt32LE]
  rw [if_pos h]
  rfl

theorem validateChainId_ok {v : Int} (h : 0 ≤ v) :
    validateChainId (some v) = .ok () := by
  simp [validateChainId, Int.not_lt.mpr h]

theorem validateTxId_ok {w : Int} (h : 0 ≤ w) :
    validateTxId (some w) = .ok () := by
  simp [validateTxId, Int.not_lt.mpr h]

theorem bnLE_ok {v : Int} {len : Nat} (h0 : 0 ≤ v) (h : v.toNat < 256 ^ len) :
    bnLE v len = .ok (leBytes len v.toNat) := by
  have habs : v.natAbs = v.toNat := by omega
  simp [bnLE, habs, h]

theorem getGatewayPda_ok {v : Int} (h0 : 0 ≤ v) (h : v < 2 ^ 64) :
    getGatewayPda (some v) = .ok [asciiBytes "gateway", leBytes 8 v.toNat] := by
  have hv : v.toNat < 256 ^ 8 := by rw [pow256_eight]; omega
  simp only [getGatewayPda, CHAIN_ID_BYTES, validateChainId_ok h0,
    Option.getD_some, bnLE_ok h0 hv]
  rfl

theorem getSignerRegistryPda_ok (rt : RegistryType) {v : Int}
    (h0 : 0 ≤ v) (h : v < 2 ^ 64) :
    getSignerRegistryPda rt (some v) =
      .ok [asciiBytes "signer_registry", [registryTypeToDiscriminant rt],
        leBytes 8 v.toNat] := by
  have hv : v.toNat < 256 ^ 8 := by rw [pow256_eight]; omega
  simp only [getSignerRegistryPda, CHAIN_ID_BYTES, validateChainId_ok h0,
    Option.getD_some, bnLE_ok h0 hv]
  rfl

theorem getCounterPda_ok {v : Int} (h0 : 0 ≤ v) (h : v < 2 ^ 64) :
    getCounterPda (some v) = .ok [asciiBytes "counter", leBytes 8 v.toNat] := by
  have hv : v.toNat < 256 ^ 8 := by rw [pow256_eight]; omega
  simp only [getCounterPda, CHAIN_ID_BYTES, validateChainId_ok h0,
    Option.getD_some, bnLE_ok h0 hv]
  rfl

theorem getTxIdPda_ok {v w : Int} (h0 : 0 ≤ v) (h : v < 2 ^ 64)
    (w0 : 0 ≤ w) (hw : w < 2 ^ 128) :
    getTxIdPda (some v) (some w) =
      .ok [asciiBytes "tx", leBytes 8 v.toNat, leBytes 16 w.toNat] := by
  have hv : v.toNat < 256 ^ 8 := by rw [pow256_eight]; omega
  have hw' : w.toNat < 256 ^ 16 := by rw [pow256_sixteen]; omega
  simp only [getTxIdPda, CHAIN_ID_BYTES, TX_ID_BYTES, validateChainId_ok h0,
    validateTxId_ok w0, Option.getD_some, bnLE_ok h0 hv, bnLE_ok w0 hw']
  rfl

theorem clientGetGatewayPda_eval :
    Client.getGatewayPda =
      .ok [asciiBytes "gateway", leBytes 8 SOLANA_CHAIN_ID] := by
  have h : ((SOLANA_CHAIN_ID : Nat) : Int).toNat < 256 ^ 8 := by
    rw [pow256_eight]; simp [SOLANA_CHAIN_ID]
  have := bnLE_ok (Int.natCast_nonneg SOLANA_CHAIN_ID) h
  simp only [Int.toNat_natCast] at this
  simp only [Client.getGatewayPda, this]
  rfl

theorem clientGetSignerRegistryPdaForChain_ok (rt : RegistryType) {v : Int}
    (h0 : 0 ≤ v) (h : v < 2 ^ 64) :
    Client.getSignerRegistryPdaForChain rt v =
      .ok [asciiBytes "signer_registry", [registryTypeToDiscriminant rt],
        leBytes 8 v.toNat] := by
  have hv : v.toNat < 256 ^ 8 := by rw [pow256_eight]; omega
  cases rt <;>
    simp only [Client.getSignerRegistryPdaForChain,
      Client.coderEncodeSignerRegistryType, registryTypeToDiscriminant,
      bnLE_ok h0 hv] <;>
    rfl

theorem clientGetCounterPda_ok {v : Int} (h0 : 0 ≤ v) (h : v < 2 ^ 64) :
    Client.getCounterPda v = .ok [asciiBytes "counter", leBytes 8 v.toNat] := by
  have hv : v.toNat < 256 ^ 8 := by rw [pow256_eight]; omega
  simp only [Client.getCounterPda, bnLE_ok h0 hv]
  rfl

theorem clientGetTxIdPda_ok {v w : Int} (h0 : 0 ≤ v) (h : v < 2 ^ 64)
    (w0 : 0 ≤ w) (hw : w < 2 ^ 128) :
    Client.getTxIdPda v w =
      .ok [asciiBytes "tx", leBytes 8 v.toNat, leBytes 16 w.toNat] := by
  have hv : v.toNat < 256 ^ 8 := by rw [pow256_eight]; omega
  have hw' : w.toNat < 256 ^ 16 := by rw [pow256_sixteen]; omega
  simp only [Client.getTxIdPda, bnLE_ok h0 hv, bnLE_ok w0 hw']
  rfl

/-- The source's hash agrees with the spec's canonical encoding: under the
field bounds, `createMessageHash` is Keccak-256 of `encodeMessage`. -/
theorem createMessageHash_eq_encode (t s d : Nat) (sen rcp onc ofc : List Nat)
    (ht : t < 2 ^ 128) (hs : s < 2 ^ 64) (hd : d < 2 ^ 64)
    (h1 : sen.length < 2 ^ 32) (h2 : rcp.length < 2 ^ 32)
    (h3 : onc.length < 2 ^ 32) (h4 : ofc.length < 2 ^ 32) :
    createMessageHash t s d sen rcp onc ofc =
      some (keccak256 (encodeMessage ⟨t, s, d, sen, rcp, onc, ofc⟩)) := by
  rw [createMessageHash, bnToArrayLikeLE_of_lt (pow256_sixteen ▸ ht),
    bnToArrayLikeLE_of_lt (pow256_eight ▸ hs),
    bnToArrayLikeLE_of_lt (pow256_eight ▸ hd),
    encodeLengthPrefixed_of_lt h1, encodeLengthPrefixed_of_lt h2,
    encodeLengthPrefixed_of_lt h3, encodeLengthPrefixed_of_lt h4]
  simp [encodeMessage, List.append_assoc]

set_option maxRecDepth 100000

/-- Implementation check against the published Keccak-256 test vector for the
empty string. -/
theorem keccak256_nil_vector :
    keccak256 [] =
      [0xc5, 0xd2, 0x46, 0x01, 0x86, 0xf7, 0x23, 0x3c,
       0x92, 0x7e, 0x7d, 0xb2, 0xdc, 0xc7, 0x03, 0xc0,
       0xe5, 0x00, 0xb6, 0x53, 0xca, 0x82, 0x27, 0x3b,
       0x7b, 0xfa, 0xd8, 0x04, 0x5d, 0x85, 0xa4, 0x70] := by decide

/-- Implementation check against the published SHA-256 test vector for the
empty string. -/
theorem sha256_nil_vector :
    sha256 [] =
      [0xe3, 0xb0, 0xc4, 0x42, 0x98, 0xfc, 0x1c, 0x14,
       0x9a, 0xfb, 0xf4, 0xc8, 0x99, 0x6f, 0xb9, 0x24,
       0x27, 0xae, 0x41, 0xe4, 0x64, 0x9b, 0x93, 0x4c,
       0xa4, 0x95, 0x99, 0x1b, 0x78, 0x52, 0xb8, 0x55] := by decide

/-! ## Claim theorems -/

/-- C2: for every message whose txId fits in 128 bits and whose chain ids fit
in 64 bits, `createMessageHash` hashes exactly the concatenation of txId as 16
bytes little-endian, sourceChainId and destChainId as 8 bytes little-endian,
then sender, recipient, onChainData, offChainData each preceded by a 4-byte
little-endian length prefix, in that fixed order with no separators or extra
padding, and the returned digest is exactly 32 bytes. -/
theorem createMessageHash_canonical_encoding (m : Message)
    (ht : m.txId < 2 ^ 128) (hs : m.sourceChainId < 2 ^ 64)
    (hd : m.destChainId < 2 ^ 64)
    (h1 : m.sender.length < 2 ^ 32) (h2 : m.recipient.length < 2 ^ 32)
    (h3 : m.onChainData.length < 2 ^ 32) (h4 : m.offChainData.length < 2 ^ 32) :
    createMessageHash m.txId m.sourceChainId m.destChainId m.sender m.recipient
      m.onChainData m.offChainData =
      some (keccak256 (leBytes 16 m.txId ++ leBytes 8 m.sourceChainId ++
        leBytes 8 m.destChainId ++ (leBytes 4 m.sender.length ++ m.sender) ++
        (leBytes 4 m.recipient.length ++ m.recipient) ++
        (leBytes 4 m.onChainData.length ++ m.onChainData) ++
        (leBytes 4 m.offChainData.length ++ m.offChainData))) ∧
    ∀ dg, createMessageHash m.txId m.sourceChainId m.destChainId m.sender
      m.recipient m.onChainData m.offChainData = some dg → dg.length = 32 := by
  have he := createMessageHash_eq_encode m.txId m.sourceChainId m.destChainId
    m.sender m.recipient m.onChainData m.offChainData ht hs hd h1 h2 h3 h4
  refine ⟨by rw [he]; rfl, fun dg hdg => ?_⟩
  rw [he] at hdg
  rw [← Option.some.inj hdg]
  exact keccak256_length _

/-- Witness for C2 at a concrete message. -/
theorem createMessageHash_canonical_encoding_witness :
    createMessageHash 1 43113 9999999999999999999 [97, 118, 97, 120] [1, 2]
      [104, 105] [] =
      some (keccak256 (leBytes 16 1 ++ leBytes 8 43113 ++
        leBytes 8 9999999999999999999 ++ (leBytes 4 4 ++ [97, 118, 97, 120]) ++
        (leBytes 4 2 ++ [1, 2]) ++ (leBytes 4 2 ++ [104, 105]) ++
        (leBytes 4 0 ++ []))) :=
  (createMessageHash_canonical_encoding
    ⟨1, 43113, 9999999999999999999, [97, 118, 97, 120], [1, 2], [104, 105], []⟩
    (by decide) (by decide) (by decide) (by decide) (by decide) (by decide)
    (by decide)).1

/-- C4: `createMessageHash` is a pure, deterministic function of its seven
field values: it yields one fixed 32-byte digest, and any invocation on equal
field values returns that same digest, with no dependence on hidden state or
call order. -/
theorem createMessageHash_deterministic (t s d : Nat) (sen rcp onc ofc : List Nat)
    (ht : t < 2 ^ 128) (hs : s < 2 ^ 64) (hd : d < 2 ^ 64)
    (h1 : sen.length < 2 ^ 32) (h2 : rcp.length < 2 ^ 32)
    (h3 : onc.length < 2 ^ 32) (h4 : ofc.length < 2 ^ 32) :
    ∃ digest, createMessageHash t s d sen rcp onc ofc = some digest ∧
      digest.length = 32 ∧
      ∀ t' s' d' sen' rcp' onc' ofc', t' = t → s' = s → d' = d → sen' = sen →
        rcp' = rcp → onc' = onc → ofc' = ofc →
        createMessageHash t' s' d' sen' rcp' onc' ofc' = some digest := by
  have he := createMessageHash_eq_encode t s d sen rcp onc ofc ht hs hd h1 h2 h3 h4
  refine ⟨_, he, keccak256_length _, ?_⟩
  intro t' s' d' sen' rcp' onc' ofc' e1 e2 e3 e4 e5 e6 e7
  subst e1; subst e2; subst e3; subst e4; subst e5; subst e6; subst e7
  exact he

/-- Witness for C4 at a concrete message. -/
theorem createMessageHash_deterministic_witness :
    ∃ digest, createMessageHash 7 5 6 [1] [2] [3] [4] = some digest ∧
      digest.length = 32 ∧
      ∀ t' s' d' sen' rcp' onc' ofc', t' = 7 → s' = 5 → d' = 6 → sen' = [1] →
        rcp' = [2] → onc' = [3] → ofc' = [4] →
        createMessageHash t' s' d' sen' rcp' onc' ofc' = some digest :=
  createMessageHash_deterministic 7 5 6 [1] [2] [3] [4] (by decide) (by decide)
    (by decide) (by decide) (by decide) (by decide) (by decide)

theorem validateChainId_neg {v : Int} (h : v < 0) :
    validateChainId (some v) = .error .invalidChainId := by
  simp [validateChainId, h]

theorem validateTxId_neg {w : Int} (h : w < 0) :
    validateTxId (some w) = .error .invalidTxId := by
  simp [validateTxId, h]

/-- C5: the persistent-record key surface is exactly the spec's: gateway from
`("gateway", chainId le-8)`, signer_registry from `("signer_registry",
[layer discriminant] with via=0 / chain=1 / project=2, chainId le-8)`, tx from
`("tx", sourceChainId le-8, txId le-16)`, counter from `("counter",
sourceChainId le-8)`; and the SDK's one-byte-discriminant derivation and the
client's Anchor-coder-based derivation produce identical seed lists (hence
identical addresses) for the same inputs. -/
theorem pda_key_surface (rt : RegistryType) (v w : Int)
    (h0 : 0 ≤ v) (h64 : v < 2 ^ 64) (w0 : 0 ≤ w) (w128 : w < 2 ^ 128) :
    getGatewayPda (some v) = .ok [asciiBytes "gateway", leBytes 8 v.toNat] ∧
    getSignerRegistryPda rt (some v) =
      .ok [asciiBytes "signer_registry", [registryTypeToDiscriminant rt],
        leBytes 8 v.toNat] ∧
    registryTypeToDiscriminant .via = 0 ∧
    registryTypeToDiscriminant .chain = 1 ∧
    registryTypeToDiscriminant .project = 2 ∧
    getTxIdPda (some v) (some w) =
      .ok [asciiBytes "tx", leBytes 8 v.toNat, leBytes 16 w.toNat] ∧
    getCounterPda (some v) = .ok [asciiBytes "counter", leBytes 8 v.toNat] ∧
    Client.getSignerRegistryPdaForChain rt v = getSignerRegistryPda rt (some v) ∧
    Client.getTxIdPda v w = getTxIdPda (some v) (some w) ∧
    Client.getCounterPda v = getCounterPda (some v) ∧
    Client.getGatewayPda = getGatewayPda (some ((SOLANA_CHAIN_ID : Nat) : Int)) := by
  refine ⟨getGatewayPda_ok h0 h64, getSignerRegistryPda_ok rt h0 h64, rfl, rfl,
    rfl, getTxIdPda_ok h0 h64 w0 w128, getCounterPda_ok h0 h64, ?_, ?_, ?_, ?_⟩
  · rw [clientGetSignerRegistryPdaForChain_ok rt h0 h64,
      getSignerRegistryPda_ok rt h0 h64]
  · rw [clientGetTxIdPda_ok h0 h64 w0 w128, getTxIdPda_ok h0 h64 w0 w128]
  · rw [clientGetCounterPda_ok h0 h64, getCounterPda_ok h0 h64]
  · have hb : ((SOLANA_CHAIN_ID : Nat) : Int) < 2 ^ 64 := by
      norm_num [SOLANA_CHAIN_ID]
    rw [clientGetGatewayPda_eval, getGatewayPda_ok (Int.natCast_nonneg _) hb,
      Int.toNat_natCast]

/-- Witness for C5 at concrete ids. -/
theorem pda_key_surface_witness :
    getGatewayPda (some 43113) = .ok [asciiBytes "gateway", leBytes 8 43113] ∧
    Client.getTxIdPda 43113 1 = getTxIdPda (some 43113) (some 1) :=
  ⟨(pda_key_surface .via 43113 1 (by decide) (by decide) (by decide)
      (by decide)).1,
    (pda_key_surface .via 43113 1 (by decide) (by decide) (by decide)
      (by decide)).2.2.2.2.2.2.2.2.1⟩

/-- C9: every PDA-derivation method of the SDK's `ViaLabsPDAs` validates its
identifiers before deriving any address, throwing the "Invalid chain ID" /
"Invalid TX ID" error whenever the supplied id is null or negative, while zero
and positive in-range values pass validation and derive. -/
theorem pda_validation (rt : RegistryType) (c t : BNVal) :
    (c = none →
      getGatewayPda c = .error .invalidChainId ∧
      getSignerRegistryPda rt c = .error .invalidChainId ∧
      getCounterPda c = .error .invalidChainId ∧
      getTxIdPda c t = .error .invalidChainId) ∧
    (∀ v : Int, v < 0 → c = some v →
      getGatewayPda c = .error .invalidChainId ∧
      getSignerRegistryPda rt c = .error .invalidChainId ∧
      getCounterPda c = .error .invalidChainId ∧
      getTxIdPda c t = .error .invalidChainId) ∧
    (∀ v : Int, 0 ≤ v → getTxIdPda (some v) none = .error .invalidTxId) ∧
    (∀ v w : Int, 0 ≤ v → w < 0 →
      getTxIdPda (some v) (some w) = .error .invalidTxId) ∧
    (∀ v : Int, 0 ≤ v → validateChainId (some v) = .ok ()) ∧
    (∀ w : Int, 0 ≤ w → validateTxId (some w) = .ok ()) ∧
    (∀ v : Int, 0 ≤ v → v < 2 ^ 64 →
      getGatewayPda (some v) = .ok [asciiBytes "gateway", leBytes 8 v.toNat] ∧
      getSignerRegistryPda rt (some v) =
        .ok [asciiBytes "signer_registry", [registryTypeToDiscriminant rt],
          leBytes 8 v.toNat] ∧
      getCounterPda (some v) = .ok [asciiBytes "counter", leBytes 8 v.toNat] ∧
      ∀ w : Int, 0 ≤ w → w < 2 ^ 128 →
        getTxIdPda (some v) (some w) =
          .ok [asciiBytes "tx", leBytes 8 v.toNat, leBytes 16 w.toNat]) := by
  refine ⟨?_, ?_, ?_, ?_, fun v h => validateChainId_ok h,
    fun w h => validateTxId_ok h, ?_⟩
  · rintro rfl
    exact ⟨rfl, rfl, rfl, rfl⟩
  · rintro v hv rfl
    refine ⟨?_, ?_, ?_, ?_⟩ <;>
      simp only [getGatewayPda, getSignerRegistryPda, getCounterPda, getTxIdPda,
        validateChainId_neg hv] <;>
      rfl
  · intro v hv
    simp only [getTxIdPda, validateChainId_ok hv]
    rfl
  · intro v w hv hw
    simp only [getTxIdPda, validateChainId_ok hv, validateTxId_neg hw]
    rfl
  · intro v h0 h64
    exact ⟨getGatewayPda_ok h0 h64, getSignerRegistryPda_ok rt h0 h64,
      getCounterPda_ok h0 h64, fun w w0 w128 => getTxIdPda_ok h0 h64 w0 w128⟩

/-- Witness for C9: null is rejected, zero passes validation and derives. -/
theorem pda_validation_witness :
    getGatewayPda none = .error .invalidChainId ∧
    getTxIdPda (some 0) (some 0) =
      .ok [asciiBytes "tx", leBytes 8 0, leBytes 16 0] :=
  ⟨((pda_validation .via none none).1 rfl).1,
    ((pda_validation .via (some 0) (some 0)).2.2.2.2.2.2 0 (by decide)
      (by decide)).2.2.2 0 (by decide) (by decide)⟩

/-- The Nat-input instantiation of `getGatewayPda_ok`, as the SDK builders
call it. -/
theorem getGatewayPda_nat (n : Nat) (h : n < 2 ^ 64) :
    getGatewayPda (some (n : Int)) = .ok [asciiBytes "gateway", leBytes 8 n] := by
  rw [getGatewayPda_ok (Int.natCast_nonneg n) (by exact_mod_cast h),
    Int.toNat_natCast]

theorem getCounterPda_nat (n : Nat) (h : n < 2 ^ 64) :
    getCounterPda (some (n : Int)) = .ok [asciiBytes "counter", leBytes 8 n] := by
  rw [getCounterPda_ok (Int.natCast_nonneg n) (by exact_mod_cast h),
    Int.toNat_natCast]

theorem getSignerRegistryPda_nat (rt : RegistryType) (n : Nat) (h : n < 2 ^ 64) :
    getSignerRegistryPda rt (some (n : Int)) = .ok (signerRegistrySeeds rt n) := by
  rw [getSignerRegistryPda_ok rt (Int.natCast_nonneg n) (by exact_mod_cast h),
    Int.toNat_natCast]
  rfl

theorem getTxIdPda_nat (n w : Nat) (h : n < 2 ^ 64) (hw : w < 2 ^ 128) :
    getTxIdPda (some (n : Int)) (some (w : Int)) =
      .ok [asciiBytes "tx", leBytes 8 n, leBytes 16 w] := by
  rw [getTxIdPda_ok (Int.natCast_nonneg n) (by exact_mod_cast h)
    (Int.natCast_nonneg w) (by exact_mod_cast hw), Int.toNat_natCast,
    Int.toNat_natCast]

theorem clientGetSignerRegistryPda_nat (rt : RegistryType) (n : Nat)
    (h : n < 2 ^ 64) :
    Client.getSignerRegistryPdaForChain rt (n : Int) =
      .ok (signerRegistrySeeds rt n) := by
  rw [clientGetSignerRegistryPdaForChain_ok rt (Int.natCast_nonneg n)
    (by exact_mod_cast h), Int.toNat_natCast]
  rfl

theorem clientGetTxIdPda_nat (n w : Nat) (h : n < 2 ^ 64) (hw : w < 2 ^ 128) :
    Client.getTxIdPda (n : Int) (w : Int) =
      .ok [asciiBytes "tx", leBytes 8 n, leBytes 16 w] := by
  rw [clientGetTxIdPda_ok (Int.natCast_nonneg n) (by exact_mod_cast h)
    (Int.natCast_nonneg w) (by exact_mod_cast hw), Int.toNat_natCast,
    Int.toNat_natCast]

/-- C10: every message-processing call — `processMessage`,
`processMessageWithSignatures`, and the `process_message` script — resolves
the Via-layer and Project-layer registries for the destination chain id but
the Chain-layer registry for the source chain id; for distinct source and
destination chains these are lookups under genuinely different chains. -/
theorem processMessage_registry_chains (txId src dst : Nat)
    (sen rcp onc ofc : List Nat) (sigs : List MessageSignature)
    (ht : txId < 2 ^ 128) (hs : src < 2 ^ 64) (hd : dst < 2 ^ 64)
    (h1 : sen.length < 2 ^ 32) (h2 : rcp.length < 2 ^ 32)
    (h3 : onc.length < 2 ^ 32) (h4 : ofc.length < 2 ^ 32) :
    (∃ gw txKey, processMessage txId src dst sen rcp onc ofc sigs =
      some (.processMessageMain txId src dst sen rcp onc ofc sigs gw txKey
        (signerRegistrySeeds .via dst) (signerRegistrySeeds .chain src)
        (signerRegistrySeeds .project dst))) ∧
    (∃ eds gw txKey,
      processMessageWithSignatures txId src dst sen rcp onc ofc sigs =
        some (eds ++ [.processMessageMain txId src dst sen rcp onc ofc sigs gw
          txKey (signerRegistrySeeds .via dst) (signerRegistrySeeds .chain src)
          (signerRegistrySeeds .project dst)])) ∧
    (∃ gw txKey, scriptProcessMessage txId src dst sen rcp onc ofc sigs =
      some (.processMessageMain txId src dst sen rcp onc ofc sigs gw txKey
        (signerRegistrySeeds .via dst) (signerRegistrySeeds .chain src)
        (signerRegistrySeeds .project dst))) ∧
    (src ≠ dst →
      signerRegistrySeeds .chain src ≠ signerRegistrySeeds .chain dst) := by
  have hmain : processMessage txId src dst sen rcp onc ofc sigs =
      some (.processMessageMain txId src dst sen rcp onc ofc sigs
        [asciiBytes "gateway", leBytes 8 dst]
        [asciiBytes "tx", leBytes 8 src, leBytes 16 txId]
        (signerRegistrySeeds .via dst) (signerRegistrySeeds .chain src)
        (signerRegistrySeeds .project dst)) := by
    simp only [processMessage, getGatewayPda_nat dst hd,
      getTxIdPda_nat src txId hs ht, getSignerRegistryPda_nat .via dst hd,
      getSignerRegistryPda_nat .chain src hs,
      getSignerRegistryPda_nat .project dst hd]
    rfl
  refine ⟨⟨_, _, hmain⟩, ?_, ?_, ?_⟩
  · have he := createMessageHash_eq_encode txId src dst sen rcp onc ofc
      ht hs hd h1 h2 h3 h4
    refine ⟨sigs.map fun s => Instr.ed25519 s.signature s.signer
        (keccak256 (encodeMessage ⟨txId, src, dst, sen, rcp, onc, ofc⟩)),
      [asciiBytes "gateway", leBytes 8 dst],
      [asciiBytes "tx", leBytes 8 src, leBytes 16 txId], ?_⟩
    simp only [processMessageWithSignatures, he, hmain]
    rfl
  · refine ⟨[asciiBytes "gateway", leBytes 8 SOLANA_CHAIN_ID],
      [asciiBytes "tx", leBytes 8 src, leBytes 16 txId], ?_⟩
    simp only [scriptProcessMessage, clientGetGatewayPda_eval,
      clientGetTxIdPda_nat src txId hs ht,
      clientGetSignerRegistryPda_nat .via dst hd,
      clientGetSignerRegistryPda_nat .chain src hs,
      clientGetSignerRegistryPda_nat .project dst hd]
    rfl
  · intro hne heq
    have hsd : leBytes 8 src = leBytes 8 dst := by
      simpa [signerRegistrySeeds] using heq
    exact hne (leBytes_inj (pow256_eight ▸ hs) (pow256_eight ▸ hd) hsd)

/-- Witness for C10 at a concrete message with distinct source and
destination chains. -/
theorem processMessage_registry_chains_witness :
    ∃ gw txKey, processMessage 1 43113 5 [] [] [] [] [] =
      some (.processMessageMain 1 43113 5 [] [] [] [] [] gw txKey
        (signerRegistrySeeds .via 5) (signerRegistrySeeds .chain 43113)
        (signerRegistrySeeds .project 5)) :=
  (processMessage_registry_chains 1 43113 5 [] [] [] [] [] (by decide)
    (by decide) (by decide) (by decide) (by decide) (by decide) (by decide)).1

/-- C6: for every signature list, the built transactions of
`createTxPdaWithSignatures` and `processMessageWithSignatures` contain exactly
one system-level Ed25519 verification instruction per submitted signature,
each verifying that signature over the full 32-byte `createMessageHash`
digest of the same message fields, and all Ed25519 instructions precede the
main program instruction. -/
theorem signature_instructions_layout (txId src dst : Nat)
    (sen rcp onc ofc : List Nat) (sigs : List MessageSignature)
    (ht : txId < 2 ^ 128) (hs : src < 2 ^ 64) (hd : dst < 2 ^ 64)
    (h1 : sen.length < 2 ^ 32) (h2 : rcp.length < 2 ^ 32)
    (h3 : onc.length < 2 ^ 32) (h4 : ofc.length < 2 ^ 32) :
    ∃ digest txKey ctrKey gwKey viaKey chKey prKey,
      createMessageHash txId src dst sen rcp onc ofc = some digest ∧
      digest.length = 32 ∧
      createTxPdaWithSignatures txId src dst sen rcp onc ofc sigs =
        some ((sigs.map fun s => Instr.ed25519 s.signature s.signer digest) ++
          [Instr.createTxPdaMain txId src dst sen rcp onc ofc sigs txKey
            ctrKey]) ∧
      processMessageWithSignatures txId src dst sen rcp onc ofc sigs =
        some ((sigs.map fun s => Instr.ed25519 s.signature s.signer digest) ++
          [Instr.processMessageMain txId src dst sen rcp onc ofc sigs gwKey
            txKey viaKey chKey prKey]) := by
  have he := createMessageHash_eq_encode txId src dst sen rcp onc ofc
    ht hs hd h1 h2 h3 h4
  refine ⟨keccak256 (encodeMessage ⟨txId, src, dst, sen, rcp, onc, ofc⟩),
    [asciiBytes "tx", leBytes 8 src, leBytes 16 txId],
    [asciiBytes "counter", leBytes 8 src],
    [asciiBytes "gateway", leBytes 8 dst],
    signerRegistrySeeds .via dst, signerRegistrySeeds .chain src,
    signerRegistrySeeds .project dst, he, keccak256_length _, ?_, ?_⟩
  · simp only [createTxPdaWithSignatures, he, getTxIdPda_nat src txId hs ht,
      getCounterPda_nat src hs]
    rfl
  · simp only [processMessageWithSignatures, he, processMessage,
      getGatewayPda_nat dst hd, getTxIdPda_nat src txId hs ht,
      getSignerRegistryPda_nat .via dst hd,
      getSignerRegistryPda_nat .chain src hs,
      getSignerRegistryPda_nat .project dst hd]
    rfl

/-- Witness for C6 at a concrete message with two signatures. -/
theorem signature_instructions_layout_witness :
    ∃ digest txKey ctrKey gwKey viaKey chKey prKey,
      createMessageHash 1 43113 5 [] [] [] [] = some digest ∧
      digest.length = 32 ∧
      createTxPdaWithSignatures 1 43113 5 [] [] [] [] sigsExample =
        some ((sigsExample.map fun s =>
            Instr.ed25519 s.signature s.signer digest) ++
          [Instr.createTxPdaMain 1 43113 5 [] [] [] [] sigsExample txKey
            ctrKey]) ∧
      processMessageWithSignatures 1 43113 5 [] [] [] [] sigsExample =
        some ((sigsExample.map fun s =>
            Instr.ed25519 s.signature s.signer digest) ++
          [Instr.processMessageMain 1 43113 5 [] [] [] [] sigsExample gwKey
            txKey viaKey chKey prKey]) :=
  signature_instructions_layout 1 43113 5 [] [] [] [] sigsExample (by decide)
    (by decide) (by decide) (by decide) (by decide) (by decide) (by decide)

/-- C1: after a successful `createTxPda` for a message, a second `createTxPda`
for any message with the same `(sourceChainId, txId)` key — whatever its other
contents — fails with `AlreadyExists`: the record's address depends only on
that key, so a marker can exist at most once per key. -/
theorem createTxPda_replay_protection (l l' : Ledger) (m1 m2 : Message)
    (h1 : createTxPdaOp l m1 = .ok l')
    (hsrc : m2.sourceChainId = m1.sourceChainId) (htx : m2.txId = m1.txId) :
    createTxPdaOp l' m2 = .error (.chain .alreadyExists) := by
  cases hk : getTxIdPda (some (m1.sourceChainId : Int)) (some (m1.txId : Int)) with
  | error e =>
    rw [show createTxPdaOp l m1 = .error (.sdk e) by
      simp only [createTxPdaOp, hk]] at h1
    simp at h1
  | ok key =>
    cases hr : createRecord l key with
    | error e =>
      rw [show createTxPdaOp l m1 = .error (.chain e) by
        simp only [createTxPdaOp, hk, hr]] at h1
      simp at h1
    | ok l2 =>
      rw [show createTxPdaOp l m1 = .ok l2 by
        simp only [createTxPdaOp, hk, hr]] at h1
      have hl2 : l2 = l' := by simpa using h1
      unfold createRecord at hr
      by_cases hmem : key ∈ l
      · rw [if_pos hmem] at hr
        cases hr
      · rw [if_neg hmem] at hr
        have hcons : key :: l = l2 := by simpa using hr
        have hkmem : key ∈ l' := by
          rw [← hl2, ← hcons]
          exact List.mem_cons_self key l
        have hk2 : getTxIdPda (some (m2.sourceChainId : Int))
            (some (m2.txId : Int)) = .ok key := by
          rw [hsrc, htx]
          exact hk
        have hrec : createRecord l' key = .error .alreadyExists := by
          simp [createRecord, hkmem]
        simp only [createTxPdaOp, hk2, hrec]

/-- Witness for C1: the marker for `(43113, 1)` is created once, then a second
creation with different message contents fails. -/
theorem createTxPda_replay_protection_witness :
    createTxPdaOp [] exampleMsg1 = .ok exampleLedger ∧
    createTxPdaOp exampleLedger exampleMsg2 = .error (.chain .alreadyExists) :=
  ⟨by rfl,
    createTxPda_replay_protection [] exampleLedger exampleMsg1 exampleMsg2
      (by rfl) rfl rfl⟩

theorem setupStep_error_inv {r : Except String Unit} {e : String}
    (h : setupStep r = .error e) :
    r = .error e ∧ containsAlreadyInUse e = false := by
  cases r with
  | ok u => simp [setupStep] at h
  | error msg =>
    by_cases hc : containsAlreadyInUse msg = true
    · simp [setupStep, hc] at h
    · rw [Bool.not_eq_true] at hc
      simp only [setupStep, hc, Bool.false_eq_true, if_false] at h
      obtain rfl : msg = e := by simpa using h
      exact ⟨rfl, hc⟩

theorem runSteps_error {rs : List (Except String Unit)} {e : String}
    (h : runSteps rs = .error e) :
    containsAlreadyInUse e = false ∧ Except.error e ∈ rs := by
  induction rs with
  | nil => simp [runSteps] at h
  | cons r rs ih =>
    rw [runSteps] at h
    cases hr : setupStep r with
    | error e1 =>
      rw [hr] at h
      have he1 : e1 = e := by
        have h' : (Except.error e1 : Except String Unit) = .error e := h
        simpa using h'
      subst he1
      obtain ⟨hre, hc⟩ := setupStep_error_inv hr
      refine ⟨hc, ?_⟩
      rw [hre]
      exact List.mem_cons_self _ _
    | ok u =>
      cases u
      rw [hr] at h
      have h' : runSteps rs = .error e := h
      obtain ⟨hc, hm⟩ := ih h'
      exact ⟨hc, List.mem_cons_of_mem _ hm⟩

theorem runSteps_ok_iff {rs : List (Except String Unit)} :
    runSteps rs = .ok () ↔ ∀ r ∈ rs, setupStep r = .ok () := by
  induction rs with
  | nil => simp [runSteps]
  | cons r rs ih =>
    constructor
    · intro h
      rw [runSteps] at h
      cases hr : setupStep r with
      | error e1 =>
        rw [hr] at h
        have h' : (Except.error e1 : Except String Unit) = .ok () := h
        simp at h'
      | ok u =>
        cases u
        rw [hr] at h
        have h' : runSteps rs = .ok () := h
        intro r' hr'
        rcases List.mem_cons.mp hr' with rfl | hmem
        · exact hr
        · exact ih.mp h' r' hmem
    · intro hall
      rw [runSteps]
      rw [hall r (List.mem_cons_self _ _)]
      have h2 : runSteps rs = .ok () :=
        ih.mpr fun r' hr' => hall r' (List.mem_cons_of_mem _ hr')
      exact h2

theorem except_bind_unit (x : Except String Unit) :
    (x >>= fun _ => (Except.ok () : Except String Unit)) = x := by
  cases x with
  | error e => rfl
  | ok u => cases u; rfl

theorem setupChain_eq_runSteps (o : SetupOutcomes) :
    setupChain o = runSteps (setupSteps o) := by
  obtain ⟨g, c, vr, cr, pr⟩ := o
  simp only [setupChain, setupSteps, runSteps, except_bind_unit]

/-- C7: in `setupChain`, a step failing with an error whose message contains
"already in use" is absorbed as success and setup proceeds; an error not
matching that condition is rethrown (so the setup result is that error, which
is always one of the steps' own non-matching errors), and no other error
condition is locally absorbed. -/
theorem setupChain_error_policy (o : SetupOutcomes) (m : String) :
    (containsAlreadyInUse m = true → setupStep (.error m) = .ok ()) ∧
    (containsAlreadyInUse m = false → setupStep (.error m) = .error m) ∧
    (∀ e, setupChain o = .error e →
      containsAlreadyInUse e = false ∧ Except.error e ∈ setupSteps o) ∧
    (setupChain o = .ok () ↔ ∀ r ∈ setupSteps o, setupStep r = .ok ()) := by
  refine ⟨fun h => by simp [setupStep, h], fun h => by simp [setupStep, h],
    ?_, ?_⟩
  · intro e h
    exact runSteps_error (setupChain_eq_runSteps o ▸ h)
  · rw [setupChain_eq_runSteps]
    exact runSteps_ok_iff

/-- Witness for C7: a gateway step whose error message contains "already in
use" is absorbed and the whole setup succeeds. -/
theorem setupChain_error_policy_witness :
    setupChain ⟨.error "account already in use", .ok (), .ok (), .ok (),
      .ok ()⟩ = .ok () :=
  (setupChain_error_policy ⟨.error "account already in use", .ok (), .ok (),
      .ok (), .ok ()⟩ "").2.2.2.mpr (by
    intro r hr
    simp only [setupSteps, List.mem_cons, List.not_mem_nil, or_false] at hr
    rcases hr with rfl | rfl | rfl | rfl | rfl <;> rfl)

/-- C8: within the field bounds, the canonical pre-hash encoding is injective
— two messages with equal encodings are equal, because the fixed-width
integer fields and the 4-byte length prefixes make the byte string uniquely
parseable — so equal digests for distinct messages would exhibit a Keccak-256
collision. -/
theorem encodeMessage_injective (m1 m2 : Message)
    (ht1 : m1.txId < 2 ^ 128) (hs1 : m1.sourceChainId < 2 ^ 64)
    (hd1 : m1.destChainId < 2 ^ 64)
    (ha1 : m1.sender.length ≤ 64) (hb1 : m1.recipient.length ≤ 64)
    (hc1 : m1.onChainData.length ≤ 1024) (he1 : m1.offChainData.length ≤ 4096)
    (ht2 : m2.txId < 2 ^ 128) (hs2 : m2.sourceChainId < 2 ^ 64)
    (hd2 : m2.destChainId < 2 ^ 64)
    (ha2 : m2.sender.length ≤ 64) (hb2 : m2.recipient.length ≤ 64)
    (hc2 : m2.onChainData.length ≤ 1024) (he2 : m2.offChainData.length ≤ 4096) :
    (encodeMessage m1 = encodeMessage m2 → m1 = m2) ∧
    (createMessageHash m1.txId m1.sourceChainId m1.destChainId m1.sender
        m1.recipient m1.onChainData m1.offChainData =
      createMessageHash m2.txId m2.sourceChainId m2.destChainId m2.sender
        m2.recipient m2.onChainData m2.offChainData →
      m1 = m2 ∨ ∃ u v, u ≠ v ∧ keccak256 u = keccak256 v) := by
  have la1 : m1.sender.length < 2 ^ 32 := by omega
  have lb1 : m1.recipient.length < 2 ^ 32 := by omega
  have lc1 : m1.onChainData.length < 2 ^ 32 := by omega
  have le1 : m1.offChainData.length < 2 ^ 32 := by omega
  have la2 : m2.sender.length < 2 ^ 32 := by omega
  have lb2 : m2.recipient.length < 2 ^ 32 := by omega
  have lc2 : m2.onChainData.length < 2 ^ 32 := by omega
  have le2 : m2.offChainData.length < 2 ^ 32 := by omega
  have hinj : encodeMessage m1 = encodeMessage m2 → m1 = m2 := by
    intro h
    unfold encodeMessage at h
    simp only [List.append_assoc] at h
    obtain ⟨e1, h⟩ :=
      leBytes_append_inj (pow256_sixteen ▸ ht1) (pow256_sixteen ▸ ht2) h
    obtain ⟨e2, h⟩ :=
      leBytes_append_inj (pow256_eight ▸ hs1) (pow256_eight ▸ hs2) h
    obtain ⟨e3, h⟩ :=
      leBytes_append_inj (pow256_eight ▸ hd1) (pow256_eight ▸ hd2) h
    obtain ⟨e4, h⟩ := lengthPrefixed_append_inj la1 la2 h
    obtain ⟨e5, h⟩ := lengthPrefixed_append_inj lb1 lb2 h
    obtain ⟨e6, h⟩ := lengthPrefixed_append_inj lc1 lc2 h
    have e7 := lengthPrefixed_inj le1 le2 h
    have hmk : (⟨m1.txId, m1.sourceChainId, m1.destChainId, m1.sender,
        m1.recipient, m1.onChainData, m1.offChainData⟩ : Message) =
        ⟨m2.txId, m2.sourceChainId, m2.destChainId, m2.sender, m2.recipient,
          m2.onChainData, m2.offChainData⟩ := by
      rw [e1, e2, e3, e4, e5, e6, e7]
    exact hmk
  refine ⟨hinj, fun hh => ?_⟩
  by_cases heq : m1 = m2
  · exact Or.inl heq
  · refine Or.inr ⟨encodeMessage m1, encodeMessage m2,
      fun hcontra => heq (hinj hcontra), ?_⟩
    have hv1 := createMessageHash_eq_encode m1.txId m1.sourceChainId
      m1.destChainId m1.sender m1.recipient m1.onChainData m1.offChainData
      ht1 hs1 hd1 la1 lb1 lc1 le1
    have hv2 := createMessageHash_eq_encode m2.txId m2.sourceChainId
      m2.destChainId m2.sender m2.recipient m2.onChainData m2.offChainData
      ht2 hs2 hd2 la2 lb2 lc2 le2
    rw [hv1, hv2] at hh
    exact Option.some.inj hh

/-- Witness for C8: two concrete messages differing only in `offChainData`
have different canonical encodings. -/
theorem encodeMessage_injective_witness :
    encodeMessage ⟨1, 43113, 5, [1], [2], [3], [4]⟩ ≠
      encodeMessage ⟨1, 43113, 5, [1], [2], [3], [5]⟩ :=
  fun h =>
    absurd
      ((encodeMessage_injective ⟨1, 43113, 5, [1], [2], [3], [4]⟩
          ⟨1, 43113, 5, [1], [2], [3], [5]⟩ (by decide) (by decide) (by decide)
          (by decide) (by decide) (by decide) (by decide) (by decide)
          (by decide) (by decide) (by decide) (by decide) (by decide)
          (by decide)).1 h)
      (by decide)

/-- C3 counterexample: the SDK's `createMessageHash` and the plan document's
`createMessageHash` already disagree on the all-zero, all-empty message, so
they do not return the same digest for every message. -/
theorem createMessageHash_plan_counterexample :
    createMessageHash 0 0 0 [] [] [] [] ≠
      planCreateMessageHash 0 0 0 [] [] [] [] := by
  decide

/-- C3 amended: the two `createMessageHash` implementations in the source are
not digest-compatible.  Both return 32-byte digests, but the SDK hashes with
Keccak-256 over u32-little-endian length-prefixed fields (48 pre-hash bytes
for the empty message) while the plan document hashes with SHA-256 over
1-byte/2-byte length prefixes (38 pre-hash bytes), and already on the
all-zero, all-empty message the digests differ. -/
theorem createMessageHash_plan_divergence :
    createMessageHash 0 0 0 [] [] [] [] =
      some (keccak256 (List.replicate 48 0)) ∧
    planCreateMessageHash 0 0 0 [] [] [] [] =
      some (sha256 (List.replicate 38 0)) ∧
    (keccak256 (List.replicate 48 0)).length = 32 ∧
    (sha256 (List.replicate 38 0)).length = 32 ∧
    createMessageHash 0 0 0 [] [] [] [] ≠
      planCreateMessageHash 0 0 0 [] [] [] [] := by
  refine ⟨?_, by decide, keccak256_length _, sha256_length _, by decide⟩
  have he := createMessageHash_eq_encode 0 0 0 [] [] [] [] (by decide)
    (by decide) (by decide) (by decide) (by decide) (by decide) (by decide)
  have henc : encodeMessage ⟨0, 0, 0, [], [], [], []⟩ = List.replicate 48 0 := by
    decide
  rw [henc] at he
  exact he

end Via
